import Mathlib

/-!
Shallow embedding of the Nutrition-Tools pipeline (`src/main.py`):
raw FoodData-Central records, the record normalizer (`process_food`),
the unit-validity check (`is_valid_unit`), the conversion-factor
calculator (`calculate_conversion_factor`), the nutrient scaler
(`compute_ingredient_nutrition`) and the recipe aggregator
(`compute_recipe_nutrition`).

Python `dict.get` results that may be `None` are modelled as `Option`;
numeric values are modelled as rationals.  Functions that can raise an
uncaught Python exception return `Except PyError _`; a `try/except`
block in the source corresponds to matching the faulting sub-expression
and mapping its fault to the handler's result.  The `pint` unit
registry is an external library; it is modelled abstractly by a
`UnitSystem`: a parser sending a unit string to its dimension together
with the linear scale to that dimension's base unit (pint's
`parse_expression` returns dimensionless `1` on a falsy input, and
raises `UndefinedUnitError` on an unknown unit; `Quantity.to` raises on
a dimensionally incompatible target).
-/

/-- Python exceptions that the embedded code can raise uncaught. -/
inductive PyError where
  | undefinedUnit
  | typeError
  | zeroDivision
deriving DecidableEq, Repr

/-- A raw `foodNutrients` element: `nutrient.name`, `nutrient.unitName`,
and the top-level `amount`, each possibly absent. -/
structure RawNutrient where
  name : Option String
  unitName : Option String
  amount : Option ℚ
deriving DecidableEq, Repr

/-- A raw `foodPortions` element: `portionDescription`, `amount`,
`measureUnit.name` and `gramWeight`, each possibly absent. -/
structure RawPortion where
  portionDescription : Option String
  amount : Option ℚ
  measureUnitName : Option String
  gramWeight : Option ℚ
deriving DecidableEq, Repr

/-- A raw food record as fetched from the external source.  An `Option`
list field of `none` models the key being absent from the dict. -/
structure RawFood where
  fdcId : Option ℤ
  description : Option String
  foodCategoryDescription : Option String
  foodNutrients : Option (List RawNutrient)
  foodPortions : Option (List RawPortion)
deriving DecidableEq, Repr

/-- A nutrient entry of a processed (normalized) record. -/
structure PNutrient where
  name : Option String
  unitName : Option String
  value : Option ℚ
deriving DecidableEq, Repr

/-- A portion entry of a processed (normalized) record. -/
structure PPortion where
  description : Option String
  amount : Option ℚ
  unit : Option String
  gramWeight : Option ℚ
deriving DecidableEq, Repr

/-- The dict built by `process_food`, also the shape of the
ultra-processed (scaled) record built by `compute_ingredient_nutrition`. -/
structure ProcessedFood where
  fdcId : Option ℤ
  description : Option String
  foodCategory : Option String
  nutrients : List PNutrient
  portions : List PPortion
deriving DecidableEq, Repr

/-- Abstract model of the pint unit registry: a unit string parses to
`(dimension, scale-to-base-of-that-dimension)` or fails. -/
structure UnitSystem where
  parse : String → Option (String × ℚ)

/-- `pint.UnitRegistry.parse_expression` without exception: a falsy
(empty) string yields dimensionless `1`; otherwise the registry lookup. -/
def uregParseOpt (S : UnitSystem) (s : String) : Option (String × ℚ) :=
  if s = "" then some ("", 1) else S.parse s

/-- `ureg(s)` as called on line 368 of `main.py`: an unknown unit raises
`UndefinedUnitError`. -/
def uregParse (S : UnitSystem) (s : String) : Except PyError (String × ℚ) :=
  match uregParseOpt S s with
  | some du => Except.ok du
  | none => Except.error PyError.undefinedUnit

/-- `is_valid_unit` (main.py lines 286-292): `parse_expression` inside a
`try` catching `UndefinedUnitError`/`DimensionalityError`.  A `None`
argument is falsy, so pint returns dimensionless `1` and the check
succeeds. -/
def is_valid_unit (S : UnitSystem) : Option String → Bool
  | none => true
  | some s => (uregParseOpt S s).isSome

/-- `Quantity.to(target)` applied to `baseVal` base units of dimension
`dim`, inside the bare `try/except` of lines 369-374: any fault
(absent target, unknown target unit, dimensional incompatibility) is
caught, modelled as `none`; success returns the magnitude in the
target unit. -/
def pintConvert (S : UnitSystem) (baseVal : ℚ) (dim : String) :
    Option String → Option ℚ
  | none => none
  | some t =>
    match uregParseOpt S t with
    | none => none
    | some du => if du.1 = dim then some (baseVal / du.2) else none

/-- `process_food` (main.py lines 219-284).  Nutrients with a `None`
amount are dropped; portions whose unit fails `is_valid_unit` are
dropped; a missing `foodNutrients` key, or a missing/empty
`foodPortions` list, makes the whole normalization return `None`.
Note the source returns the record even when every portion was
dropped — only an absent or empty raw portion list aborts. -/
def process_food (S : UnitSystem) (food_data : Option RawFood) :
    Option ProcessedFood :=
  match food_data with
  | none => none
  | some fd =>
    match fd.foodNutrients with
    | none => none
    | some ns =>
      let nutrients := ns.filterMap fun n =>
        match n.amount with
        | none => none
        | some v => some { name := n.name, unitName := n.unitName,
                           value := some v : PNutrient }
      match fd.foodPortions with
      | none => none
      | some ps =>
        if ps = [] then none
        else
          let portions :=
            (ps.filter fun p => is_valid_unit S p.measureUnitName).map fun p =>
              { description := p.portionDescription, amount := p.amount,
                unit := p.measureUnitName, gramWeight := p.gramWeight : PPortion }
          some { fdcId := fd.fdcId, description := fd.description,
                 foodCategory := fd.foodCategoryDescription,
                 nutrients := nutrients, portions := portions }

/-- `calculate_conversion_factor` (main.py lines 340-380).  The result
distinguishes a returned value (`Except.ok`, itself `Option` since the
function may return `None`) from an uncaught exception (`Except.error`):
`float(gramWeight)` on `None` raises `TypeError`; `ureg(amount[1])` on
an unknown unit raises `UndefinedUnitError` outside the `try` block;
only `amt_val.to(std_unit)` is guarded (bare `except` returning
`None`); the final division raises `ZeroDivisionError` when the
reference portion's amount is `0`, and `TypeError` when it is `None`. -/
def calculate_conversion_factor (S : UnitSystem)
    (processed_food : Option ProcessedFood) (amount : ℚ × String) :
    Except PyError (Option ℚ) :=
  match processed_food with
  | none => Except.ok none
  | some pf =>
    match pf.portions with
    | [] => Except.ok none
    | portion :: _ =>
      match portion.gramWeight with
      | none => Except.error PyError.typeError
      | some gram_weight =>
        match uregParse S amount.2 with
        | Except.error e => Except.error e
        | Except.ok ds =>
          match pintConvert S (amount.1 * ds.2) ds.1 portion.unit with
          | none => Except.ok none
          | some multiplier =>
            match portion.amount with
            | none => Except.error PyError.typeError
            | some std_qty =>
              if std_qty = 0 then Except.error PyError.zeroDivision
              else Except.ok (some ((multiplier * gram_weight) / (std_qty * 100)))

/-- `compute_ingredient_nutrition` (main.py lines 382-414).  Python's
`not conversion_factor` is true both for `None` and for `0.0`, so a
zero factor short-circuits to `None`.  Nutrients with a `None` value
are skipped defensively; all other fields, `portions` included, are
copied from the source record. -/
def compute_ingredient_nutrition (processed_food : Option ProcessedFood)
    (conversion_factor : Option ℚ) : Option ProcessedFood :=
  match processed_food, conversion_factor with
  | some pf, some cf =>
    if cf = 0 then none
    else
      some { fdcId := pf.fdcId, description := pf.description,
             foodCategory := pf.foodCategory,
             nutrients := pf.nutrients.filterMap fun n =>
               match n.value with
               | none => none
               | some v => some { name := n.name, unitName := n.unitName,
                                  value := some (v * cf) : PNutrient },
             portions := pf.portions }
  | _, _ => none

/-- One entry of the `total_nutrients` dict: `{value, unitName}`.  The
value can be `None` because the source initializes a fresh entry with
whatever `nutrient.get('value')` returned. -/
structure TotalEntry where
  value : Option ℚ
  unitName : Option String
deriving DecidableEq, Repr

/-- The `total_nutrients` Python dict, as an insertion-ordered
association list with `Option String` keys (`nutrient.get('name')`
can be `None`). -/
abbrev TotalsMap := List (Option String × TotalEntry)

/-- Python dict lookup on the totals map. -/
def lookupTot : TotalsMap → Option String → Option TotalEntry
  | [], _ => none
  | (k, e) :: rest, key => if k = key then some e else lookupTot rest key

/-- Python dict in-place update of an existing key (position kept). -/
def updateTot : TotalsMap → Option String → TotalEntry → TotalsMap
  | [], _, _ => []
  | (k, e) :: rest, key, e' =>
    if k = key then (k, e') :: rest else (k, e) :: updateTot rest key e'

/-- The per-nutrient accumulation loop of `compute_recipe_nutrition`
(main.py lines 446-456) over one ingredient's nutrient list.  Adding to
an existing total (`+=`) raises `TypeError` when either side is `None`:
the loop stops there (the `except` catches it) and the mutations made
so far persist.  The boolean records whether a fault occurred. -/
def addNutrients : List PNutrient → TotalsMap → TotalsMap × Bool
  | [], tot => (tot, false)
  | n :: rest, tot =>
    match lookupTot tot n.name with
    | some e =>
      match e.value, n.value with
      | some v, some nv =>
        addNutrients rest (updateTot tot n.name ⟨some (v + nv), e.unitName⟩)
      | _, _ => (tot, true)
    | none => addNutrients rest (tot ++ [(n.name, ⟨n.value, n.unitName⟩)])

/-- The final report: the `ingredients` list and the `totalNutrients`
mapping. -/
structure RecipeNutrition where
  ingredients : List (String × List PNutrient)
  totalNutrients : TotalsMap
deriving DecidableEq, Repr

/-- One iteration of the ingredient loop of `compute_recipe_nutrition`
(main.py lines 437-460).  An absent profile faults at
`processed_food['nutrients']` before the append, so nothing of that
ingredient is recorded; a present profile is appended to `ingredients`
first and its nutrients then folded into the totals — a fault inside
that fold is caught but leaves the append and earlier additions in
place. -/
def processOne (acc : List (String × List PNutrient) × TotalsMap)
    (item : String × Option ProcessedFood) :
    List (String × List PNutrient) × TotalsMap :=
  match item.2 with
  | none => acc
  | some pf => (acc.1 ++ [(item.1, pf.nutrients)], (addNutrients pf.nutrients acc.2).1)

/-- The ingredient fold of `compute_recipe_nutrition`. -/
def recipeFold (l : List (String × Option ProcessedFood)) :
    List (String × List PNutrient) × TotalsMap :=
  l.foldl processOne ([], [])

/-- `compute_recipe_nutrition` (main.py lines 416-464).  The input dict
is modelled as its insertion-ordered item list; an empty (falsy) input
returns `None`. -/
def compute_recipe_nutrition (l : List (String × Option ProcessedFood)) :
    Option RecipeNutrition :=
  if l = [] then none
  else some { ingredients := (recipeFold l).1, totalNutrients := (recipeFold l).2 }

/-- All nutrient entries contributed by a recipe's profiles, in
iteration order. -/
def allEntries (l : List (String × Option ProcessedFood)) : List PNutrient :=
  l.flatMap fun p =>
    match p.2 with
    | some pf => pf.nutrients
    | none => []

/-- The entries of a nutrient list carrying a given name. -/
def entriesFor (k : Option String) (es : List PNutrient) : List PNutrient :=
  es.filter fun n => n.name = k

/-- Sum of the values carried by the entries of a given name. -/
def sumFor (k : Option String) (es : List PNutrient) : ℚ :=
  ((entriesFor k es).map fun n => n.value.getD 0).sum

/-- A profile is valid when it is present and every nutrient value is
present. -/
def validProfile : Option ProcessedFood → Bool
  | none => false
  | some pf => pf.nutrients.all fun n => n.value.isSome

/-- A concrete instantiation of the unit model, used by the concrete
scenarios: cups and milliliters are volumes, grams are masses. -/
def testUnits : UnitSystem where
  parse s :=
    if s = "cup" then some ("volume", 240)
    else if s = "milliliter" then some ("volume", 1)
    else if s = "gram" then some ("mass", 1)
    else none

/-- The flour record of the spec's scenario: first portion
`{amount: 1, unit: "cup", gramWeight: 125}`, nutrient Energy 364. -/
def flourRecord : ProcessedFood where
  fdcId := some 1
  description := some "flour"
  foodCategory := none
  nutrients := [⟨some "Energy", some "kcal", some 364⟩]
  portions := [⟨some "1 cup", some 1, some "cup", some 125⟩]

/-- A record whose first portion is measured in grams: a requested
volume cannot be converted to it (no density bridge). -/
def gramRecord : ProcessedFood where
  fdcId := some 2
  description := some "sugar"
  foodCategory := none
  nutrients := [⟨some "Energy", some "kcal", some 387⟩]
  portions := [⟨none, some 100, some "gram", some 100⟩]

/-- A record whose first portion has `amount = 0`: the conversion-factor
division is degenerate. -/
def zeroAmountRecord : ProcessedFood where
  fdcId := some 3
  description := some "degenerate"
  foodCategory := none
  nutrients := [⟨some "Energy", some "kcal", some 10⟩]
  portions := [⟨none, some 0, some "cup", some 125⟩]

/-- A raw record with one null-valued nutrient and one invalid-unit
portion, both of which normalization must drop. -/
def rawFlour : RawFood where
  fdcId := some 1
  description := some "flour"
  foodCategoryDescription := some "Baked Products"
  foodNutrients := some [⟨some "Energy", some "kcal", some 364⟩,
                         ⟨some "Water", some "g", none⟩]
  foodPortions := some [⟨some "1 cup", some 1, some "cup", some 125⟩,
                        ⟨none, some 1, some "slice", some 30⟩]

/-- The record `process_food` produces from `rawFlour`. -/
def procFlour : ProcessedFood where
  fdcId := some 1
  description := some "flour"
  foodCategory := some "Baked Products"
  nutrients := [⟨some "Energy", some "kcal", some 364⟩]
  portions := [⟨some "1 cup", some 1, some "cup", some 125⟩]

/-- A raw record with nutrients and a non-empty portion list whose every
unit is invalid in `testUnits`. -/
def rawAllInvalid : RawFood where
  fdcId := some 9
  description := some "weird"
  foodCategoryDescription := none
  foodNutrients := some [⟨some "Energy", some "kcal", some 50⟩]
  foodPortions := some [⟨none, some 1, some "slice", some 20⟩]

/-- A valid ingredient profile: Protein 5 g. -/
def pfA : ProcessedFood :=
  ⟨some 11, some "a", none, [⟨some "Protein", some "g", some 5⟩], []⟩

/-- A valid ingredient profile: Protein 3 g. -/
def pfC : ProcessedFood :=
  ⟨some 12, some "c", none, [⟨some "Protein", some "g", some 3⟩], []⟩

/-- A valid profile whose Protein entry carries unit `mg` instead of `g`. -/
def pfCmg : ProcessedFood :=
  ⟨some 13, some "cmg", none, [⟨some "Protein", some "mg", some 3⟩], []⟩

/-- A malformed profile: its Protein entry has a `None` value, so folding
it into an existing Protein total raises `TypeError` mid-loop. -/
def pfBad : ProcessedFood :=
  ⟨some 14, some "bad", none, [⟨some "Protein", some "g", none⟩], []⟩

/-- A recipe list with one absent (malformed) profile among two valid ones. -/
def exC5L : List (String × Option ProcessedFood) :=
  [("a", some pfA), ("bad", none), ("c", some pfC)]

/-- Two-ingredient recipe with consistent nutrient units. -/
def exLA : List (String × Option ProcessedFood) :=
  [("a", some pfA), ("c", some pfC)]

/-- `exLA` permuted. -/
def exLB : List (String × Option ProcessedFood) :=
  [("c", some pfC), ("a", some pfA)]

/-- Two-ingredient recipe whose Protein entries disagree on the unit name. -/
def exMA : List (String × Option ProcessedFood) :=
  [("a", some pfA), ("cmg", some pfCmg)]

/-- `exMA` permuted. -/
def exMB : List (String × Option ProcessedFood) :=
  [("cmg", some pfCmg), ("a", some pfA)]

/-- Claim C1: for a record with a first portion and a requested quantity
convertible to that portion's unit, `calculate_conversion_factor`
returns `(converted_magnitude * gramWeight) / (amount * 100)`; in the
spec's scenario — requested `(1, "cup")` against first portion
`{amount: 1, unit: "cup", gramWeight: 125}` — the factor is `1.25`, and
scaling the 364-valued Energy nutrient by it yields `455`. -/
theorem calculate_conversion_factor_formula :
    (∀ (S : UnitSystem) (pf : ProcessedFood) (q : ℚ) (u : String)
       (p : PPortion) (rest : List PPortion) (gw a : ℚ) (dim : String) (s m : ℚ),
      pf.portions = p :: rest →
      p.gramWeight = some gw →
      uregParse S u = Except.ok (dim, s) →
      pintConvert S (q * s) dim p.unit = some m →
      p.amount = some a → a ≠ 0 →
      calculate_conversion_factor S (some pf) (q, u) =
        Except.ok (some ((m * gw) / (a * 100)))) ∧
    (calculate_conversion_factor testUnits (some flourRecord) (1, "cup") =
        Except.ok (some (5 / 4)) ∧
      compute_ingredient_nutrition (some flourRecord) (some (5 / 4)) =
        some { fdcId := some 1, description := some "flour", foodCategory := none,
               nutrients := [⟨some "Energy", some "kcal", some 455⟩],
               portions := [⟨some "1 cup", some 1, some "cup", some 125⟩] }) := by
  refine ⟨?_, ?_, ?_⟩
  · intro S pf q u p rest gw a dim s m hp hg hu hc ha hne
    simp [calculate_conversion_factor, hp, hg, hu, hc, ha, hne]
  · simp [calculate_conversion_factor, flourRecord, testUnits, uregParse,
      uregParseOpt, pintConvert]
    norm_num
  · simp [compute_ingredient_nutrition, flourRecord]
    norm_num

/-- Witness for C1: the general formula applied at the spec's concrete
flour scenario. -/
theorem calculate_conversion_factor_formula_witness :
    calculate_conversion_factor testUnits (some flourRecord) (1, "cup") =
      Except.ok (some ((1 * 125) / (1 * 100))) :=
  calculate_conversion_factor_formula.1 testUnits flourRecord 1 "cup"
    ⟨some "1 cup", some 1, some "cup", some 125⟩ [] 125 1 "volume" 240 1
    rfl rfl
    (by simp [uregParse, uregParseOpt, testUnits])
    (by simp [pintConvert, uregParseOpt, testUnits])
    rfl one_ne_zero

/-- Claim C2 counterexample: a requested unit string unrecognized by the
unit system does not make `calculate_conversion_factor` return `None`;
`ureg(amount[1])` sits outside the `try` block, so an uncaught
`UndefinedUnitError` propagates. -/
theorem unknown_unit_raises_counterexample :
    calculate_conversion_factor testUnits (some flourRecord) (1, "blargh") =
      Except.error PyError.undefinedUnit ∧
    calculate_conversion_factor testUnits (some flourRecord) (1, "blargh") ≠
      Except.ok none := by
  have h : calculate_conversion_factor testUnits (some flourRecord) (1, "blargh") =
      Except.error PyError.undefinedUnit := by
    simp [calculate_conversion_factor, flourRecord, testUnits, uregParse, uregParseOpt]
  exact ⟨h, by rw [h]; simp⟩

/-- Claim C2 amended: with a usable first portion, a dimensionally
incompatible conversion returns `None` without an exception (the
conversion call is the guarded one), but an unrecognized requested-unit
string raises an uncaught `UndefinedUnitError`. -/
theorem incompatible_units_return_none
    (S : UnitSystem) (pf : ProcessedFood) (q : ℚ) (u : String)
    (p : PPortion) (rest : List PPortion) (gw : ℚ)
    (hp : pf.portions = p :: rest) (hg : p.gramWeight = some gw) :
    (∀ dim s, uregParse S u = Except.ok (dim, s) →
      pintConvert S (q * s) dim p.unit = none →
      calculate_conversion_factor S (some pf) (q, u) = Except.ok none) ∧
    (S.parse u = none → u ≠ "" →
      calculate_conversion_factor S (some pf) (q, u) =
        Except.error PyError.undefinedUnit) := by
  constructor
  · intro dim s hu hc
    simp [calculate_conversion_factor, hp, hg, hu, hc]
  · intro hu hne
    simp [calculate_conversion_factor, hp, hg, uregParse, uregParseOpt, hu, hne]

/-- Witness for the amended C2: a cup requested against a grams-only
portion yields `None`; an unknown unit raises. -/
theorem incompatible_units_return_none_witness :
    calculate_conversion_factor testUnits (some gramRecord) (1, "cup") =
      Except.ok none ∧
    calculate_conversion_factor testUnits (some gramRecord) (1, "blargh") =
      Except.error PyError.undefinedUnit :=
  ⟨(incompatible_units_return_none testUnits gramRecord 1 "cup"
      ⟨none, some 100, some "gram", some 100⟩ [] 100 rfl rfl).1 "volume" 240
      (by simp [uregParse, uregParseOpt, testUnits])
      (by simp [pintConvert, uregParseOpt, testUnits]),
   (incompatible_units_return_none testUnits gramRecord 1 "blargh"
      ⟨none, some 100, some "gram", some 100⟩ [] 100 rfl rfl).2
      (by simp [testUnits]) (by simp)⟩

/-- Claim C3: at a first portion with `amount = 0` the source does NOT
return `None` — the unguarded division `(multiplier * gram_weight) /
(std_qty * 100)` raises an uncaught `ZeroDivisionError`.  This theorem
evaluates the embedded code at the failing input. -/
theorem zero_portion_amount_division_fault :
    calculate_conversion_factor testUnits (some zeroAmountRecord) (1, "cup") =
      Except.error PyError.zeroDivision := by
  simp [calculate_conversion_factor, zeroAmountRecord, testUnits, uregParse,
    uregParseOpt, pintConvert]

/-- Claim C9: the scaled profile keeps `portions`, `fdcId`,
`description` and `foodCategory` identical to the source record, and
only nutrient values change: under the normalized-record invariant
(every nutrient value present, §3 / C8) the output nutrient list is
entry-for-entry the input list with the same names and unit names and
each value multiplied by the factor. -/
theorem scaler_frame (pf : ProcessedFood) (cf : ℚ) (h : cf ≠ 0) :
    (compute_ingredient_nutrition (some pf) (some cf)).map
        (fun r => (r.portions, r.fdcId, r.description, r.foodCategory)) =
      some (pf.portions, pf.fdcId, pf.description, pf.foodCategory) ∧
    ((∀ n ∈ pf.nutrients, n.value.isSome = true) →
      (compute_ingredient_nutrition (some pf) (some cf)).map
          (fun r => r.nutrients) =
        some (pf.nutrients.map fun n =>
          { name := n.name, unitName := n.unitName,
            value := n.value.map fun v => v * cf })) := by
  constructor
  · simp [compute_ingredient_nutrition, h]
  · intro hvals
    have haux : ∀ ns : List PNutrient, (∀ n ∈ ns, n.value.isSome = true) →
        (ns.filterMap fun n =>
          match n.value with
          | none => none
          | some v => some { name := n.name, unitName := n.unitName,
                             value := some (v * cf) : PNutrient }) =
        ns.map fun n =>
          { name := n.name, unitName := n.unitName,
            value := n.value.map fun v => v * cf } := by
      intro ns
      induction ns with
      | nil => intro _; rfl
      | cons n rest ih =>
        intro hns
        obtain ⟨v, hv⟩ :=
          Option.isSome_iff_exists.mp (hns n (List.mem_cons_self _ _))
        rw [List.filterMap_cons, List.map_cons, hv,
          ih fun m hm => hns m (List.mem_cons_of_mem _ hm)]
        rfl
    simp [compute_ingredient_nutrition, h, haux pf.nutrients hvals]

/-- Witness for C9 at the flour record with factor 2: frame fields kept
and the Energy entry keeps its name and unit name with value doubled. -/
theorem scaler_frame_witness :
    (compute_ingredient_nutrition (some flourRecord) (some 2)).map
        (fun r => (r.portions, r.fdcId, r.description, r.foodCategory)) =
      some (flourRecord.portions, flourRecord.fdcId, flourRecord.description,
        flourRecord.foodCategory) ∧
    (compute_ingredient_nutrition (some flourRecord) (some 2)).map
        (fun r => r.nutrients) =
      some (flourRecord.nutrients.map fun n =>
        { name := n.name, unitName := n.unitName,
          value := n.value.map fun v => v * 2 }) :=
  ⟨(scaler_frame flourRecord 2 two_ne_zero).1,
   (scaler_frame flourRecord 2 two_ne_zero).2 (by
      intro n hn
      rw [flourRecord] at hn
      rcases List.mem_cons.mp hn with hh | hh
      · subst hh; rfl
      · cases hh)⟩

/-- Claim C10: a conversion factor of exactly `0` is falsy in Python, so
`compute_ingredient_nutrition` returns `None` exactly as it does for an
absent factor. -/
theorem zero_factor_returns_none (pf : ProcessedFood) :
    compute_ingredient_nutrition (some pf) (some 0) = none ∧
    compute_ingredient_nutrition (some pf) none = none := by
  constructor
  · simp [compute_ingredient_nutrition]
  · rfl

/-- Claim C7: scaling is linear — the profile computed at factor `k * f`
carries exactly `k` times the nutrient values of the profile computed at
factor `f` (names and unit names unchanged). -/
theorem scaling_linear (pf : ProcessedFood) (f k : ℚ) (hf : f ≠ 0)
    (hkf : k * f ≠ 0) :
    ∃ p q, compute_ingredient_nutrition (some pf) (some f) = some p ∧
      compute_ingredient_nutrition (some pf) (some (k * f)) = some q ∧
      q.nutrients = p.nutrients.map fun n =>
        { name := n.name, unitName := n.unitName,
          value := n.value.map fun v => v * k } := by
  refine ⟨{ fdcId := pf.fdcId, description := pf.description,
            foodCategory := pf.foodCategory,
            nutrients := pf.nutrients.filterMap fun n =>
              match n.value with
              | none => none
              | some v => some { name := n.name, unitName := n.unitName,
                                 value := some (v * f) : PNutrient },
            portions := pf.portions },
          { fdcId := pf.fdcId, description := pf.description,
            foodCategory := pf.foodCategory,
            nutrients := pf.nutrients.filterMap fun n =>
              match n.value with
              | none => none
              | some v => some { name := n.name, unitName := n.unitName,
                                 value := some (v * (k * f)) : PNutrient },
            portions := pf.portions }, ?_, ?_, ?_⟩
  · simp [compute_ingredient_nutrition, hf]
  · simp [compute_ingredient_nutrition, hkf]
  · show List.filterMap _ pf.nutrients = (List.filterMap _ pf.nutrients).map _
    induction pf.nutrients with
    | nil => rfl
    | cons n rest ih =>
      cases hv : n.value with
      | none => simpa [List.filterMap_cons, hv] using ih
      | some v =>
        simp [List.filterMap_cons, hv, ih]
        ring

/-- Witness for C7 at the flour record with `f = 1/2`, `k = 3`. -/
theorem scaling_linear_witness :
    ∃ p q, compute_ingredient_nutrition (some flourRecord) (some (1 / 2)) = some p ∧
      compute_ingredient_nutrition (some flourRecord) (some (3 * (1 / 2))) = some q ∧
      q.nutrients = p.nutrients.map fun n =>
        { name := n.name, unitName := n.unitName,
          value := n.value.map fun v => v * 3 } :=
  scaling_linear flourRecord (1 / 2) 3 (by norm_num) (by norm_num)

/-- Claim C8: whenever `process_food` succeeds, the returned record
contains no nutrient with an absent value and no portion whose unit
fails `is_valid_unit`. -/
theorem process_food_invariant (S : UnitSystem) (fd : Option RawFood)
    (r : ProcessedFood) (h : process_food S fd = some r) :
    (∀ n ∈ r.nutrients, n.value.isSome = true) ∧
    (∀ p ∈ r.portions, is_valid_unit S p.unit = true) := by
  cases fd with
  | none => exact absurd h (by simp [process_food])
  | some raw =>
    simp only [process_food] at h
    split at h
    · exact absurd h (by simp)
    split at h
    · exact absurd h (by simp)
    split at h
    · exact absurd h (by simp)
    simp only [Option.some.injEq] at h
    subst h
    constructor
    · intro n hn
      simp only [List.mem_filterMap] at hn
      obtain ⟨rn, _, hrn⟩ := hn
      cases ha : rn.amount with
      | none => rw [ha] at hrn; cases hrn
      | some v => rw [ha] at hrn; cases hrn; rfl
    · intro p hp
      simp only [List.mem_map] at hp
      obtain ⟨rp, hmem, hconv⟩ := hp
      have hvalid := List.of_mem_filter hmem
      rw [← hconv]
      simpa using hvalid

/-- Witness for C8: the raw flour record normalizes successfully and the
resulting record passes both invariant checks. -/
theorem process_food_invariant_witness :
    (procFlour.nutrients.all fun n => n.value.isSome) = true ∧
    (procFlour.portions.all fun p => is_valid_unit testUnits p.unit) = true := by
  have h := process_food_invariant testUnits (some rawFlour) procFlour
    (by simp [process_food, rawFlour, procFlour, is_valid_unit, uregParseOpt, testUnits])
  exact ⟨List.all_eq_true.mpr fun n hn => h.1 n hn,
    List.all_eq_true.mpr fun p hp => h.2 p hp⟩

/-- Claim C4 counterexample: a raw record with nutrients and a non-empty
portion list whose every unit is invalid is NOT rejected — `process_food`
returns a record with an empty `portions` list instead of `None`. -/
theorem all_portions_dropped_counterexample :
    is_valid_unit testUnits (some "slice") = false ∧
    process_food testUnits (some rawAllInvalid) =
      some { fdcId := some 9, description := some "weird", foodCategory := none,
             nutrients := [⟨some "Energy", some "kcal", some 50⟩],
             portions := [] } ∧
    process_food testUnits (some rawAllInvalid) ≠ none := by
  refine ⟨?_, ?_, ?_⟩
  · simp [is_valid_unit, uregParseOpt, testUnits]
  · simp [process_food, rawAllInvalid, is_valid_unit, uregParseOpt, testUnits]
  · simp [process_food, rawAllInvalid, is_valid_unit, uregParseOpt, testUnits]

/-- Claim C4 amended: an absent or empty raw portion list makes
`process_food` return `None`; but when portions exist and every one is
dropped by unit-validity, it returns a record whose `portions` list is
empty rather than `None`. -/
theorem process_food_missing_portions (S : UnitSystem) (fd : RawFood)
    (ns : List RawNutrient) (hn : fd.foodNutrients = some ns) :
    ((fd.foodPortions = none ∨ fd.foodPortions = some []) →
      process_food S (some fd) = none) ∧
    (∀ ps, fd.foodPortions = some ps → ps ≠ [] →
      (∀ p ∈ ps, is_valid_unit S p.measureUnitName = false) →
      ∃ r, process_food S (some fd) = some r ∧ r.portions = []) := by
  constructor
  · rintro (h | h) <;> simp [process_food, hn, h]
  · intro ps hps hne hall
    have hfilter : ps.filter (fun p => is_valid_unit S p.measureUnitName) = [] := by
      rw [List.filter_eq_nil_iff]
      intro p hp
      simp [hall p hp]
    refine ⟨{ fdcId := fd.fdcId, description := fd.description,
              foodCategory := fd.foodCategoryDescription,
              nutrients := ns.filterMap fun n =>
                match n.amount with
                | none => none
                | some v => some { name := n.name, unitName := n.unitName,
                                   value := some v : PNutrient },
              portions := [] }, ?_, rfl⟩
    simp [process_food, hn, hps, hne, hfilter]

/-- Witness for the amended C4 at `rawAllInvalid` (all-dropped branch)
and a portionless variant (rejected branch). -/
theorem process_food_missing_portions_witness :
    process_food testUnits
      (some { rawAllInvalid with foodPortions := some [] }) = none ∧
    ∃ r, process_food testUnits (some rawAllInvalid) = some r ∧
      r.portions = [] :=
  ⟨(process_food_missing_portions testUnits
      { rawAllInvalid with foodPortions := some [] }
      [⟨some "Energy", some "kcal", some 50⟩] rfl).1 (Or.inr rfl),
   (process_food_missing_portions testUnits rawAllInvalid
      [⟨some "Energy", some "kcal", some 50⟩] rfl).2
      [⟨none, some 1, some "slice", some 20⟩] rfl (by simp)
      (by intro p hp
          simp only [List.mem_singleton] at hp
          subst hp
          simp [is_valid_unit, uregParseOpt, testUnits])⟩

/-- Folding an ingredient list skips entries whose profile is absent:
filtering them away first changes nothing. -/
theorem foldl_processOne_filter (l : List (String × Option ProcessedFood)) :
    ∀ acc, (l.filter fun p => p.2.isSome).foldl processOne acc =
      l.foldl processOne acc := by
  induction l with
  | nil => intro acc; rfl
  | cons x rest ih =>
    intro acc
    cases hx : x.2 with
    | none => simp [List.filter_cons, hx, processOne, List.foldl_cons, ih]
    | some pf => simp [List.filter_cons, hx, processOne, List.foldl_cons, ih]

/-- The ingredient names recorded by the fold are the accumulator's names
followed by the names of the present-profile entries, in order. -/
theorem foldl_processOne_names (l : List (String × Option ProcessedFood)) :
    ∀ acc : List (String × List PNutrient) × TotalsMap,
      (l.foldl processOne acc).1.map Prod.fst =
        acc.1.map Prod.fst ++ (l.filter fun p => p.2.isSome).map Prod.fst := by
  induction l with
  | nil => intro acc; simp
  | cons x rest ih =>
    intro acc
    cases hx : x.2 with
    | none => simp [List.filter_cons, hx, processOne, List.foldl_cons, ih]
    | some pf => simp [List.filter_cons, hx, processOne, List.foldl_cons, ih]

/-- Claim C5 counterexample: `pfBad`'s nutrient loop faults (its Protein
value is `None` and Protein is already in the totals), yet the
ingredient `"bad"` was appended to the report's `ingredients` list
before the fault — the report lists 2 ingredients, not N-1 = 1. -/
theorem midfold_fault_ingredient_kept_counterexample :
    (addNutrients pfBad.nutrients (recipeFold [("a", some pfA)]).2).2 = true ∧
    (compute_recipe_nutrition [("a", some pfA), ("bad", some pfBad)]).map
      (fun r => r.ingredients.map Prod.fst) = some ["a", "bad"] := by
  constructor
  · simp [addNutrients, recipeFold, processOne, pfA, pfBad, lookupTot]
  · simp [compute_recipe_nutrition, recipeFold, processOne, pfA, pfBad]

/-- Claim C5 amended: when the malformed profiles are the absent ones
(the fault fires at the `nutrients` access, before anything is
recorded), the report is exactly the report of the valid ingredients
alone — the faulting ingredient contributes nothing and processing
continues. -/
theorem absent_profiles_skipped_entirely
    (l : List (String × Option ProcessedFood))
    (h1 : l ≠ []) (h2 : (l.filter fun p => p.2.isSome) ≠ []) :
    compute_recipe_nutrition l =
      compute_recipe_nutrition (l.filter fun p => p.2.isSome) ∧
    ∀ r, compute_recipe_nutrition l = some r →
      r.ingredients.map Prod.fst = (l.filter fun p => p.2.isSome).map Prod.fst := by
  have hfold : recipeFold (l.filter fun p => p.2.isSome) = recipeFold l :=
    foldl_processOne_filter l ([], [])
  constructor
  · simp [compute_recipe_nutrition, h1, h2, hfold]
  · intro r hr
    rw [compute_recipe_nutrition, if_neg h1, Option.some.injEq] at hr
    subst hr
    simpa using foldl_processOne_names l ([], [])

/-- Witness for the amended C5: a three-entry recipe with one absent
profile equals the recipe computed from its two valid entries. -/
theorem absent_profiles_skipped_entirely_witness :
    compute_recipe_nutrition exC5L =
      compute_recipe_nutrition (exC5L.filter fun p => p.2.isSome) :=
  (absent_profiles_skipped_entirely exC5L (by simp [exC5L])
    (by simp [exC5L])).1

/-- Invariant of the totals map: every stored value is present. -/
def totOk (t : TotalsMap) : Prop := ∀ q ∈ t, q.2.value.isSome = true

theorem lookupTot_mem {t : TotalsMap} {k : Option String} {e : TotalEntry}
    (h : lookupTot t k = some e) : (k, e) ∈ t := by
  induction t with
  | nil => cases h
  | cons x rest ih =>
    obtain ⟨k', e'⟩ := x
    rw [lookupTot] at h
    by_cases hk : k' = k
    · rw [if_pos hk] at h
      cases h
      subst hk
      exact List.mem_cons_self _ _
    · rw [if_neg hk] at h
      exact List.mem_cons_of_mem _ (ih h)

theorem lookupTot_updateTot_self {t : TotalsMap} {key : Option String}
    {e : TotalEntry} (h : lookupTot t key = some e) (e' : TotalEntry) :
    lookupTot (updateTot t key e') key = some e' := by
  induction t with
  | nil => cases h
  | cons x rest ih =>
    obtain ⟨k, e₀⟩ := x
    by_cases hk : k = key
    · simp [lookupTot, updateTot, hk]
    · rw [lookupTot, if_neg hk] at h
      rw [updateTot, if_neg hk, lookupTot, if_neg hk]
      exact ih h

theorem lookupTot_updateTot_ne {t : TotalsMap} {key k : Option String}
    (hne : k ≠ key) (e' : TotalEntry) :
    lookupTot (updateTot t key e') k = lookupTot t k := by
  induction t with
  | nil => rfl
  | cons x rest ih =>
    obtain ⟨k₀, e₀⟩ := x
    by_cases hk : k₀ = key
    · subst hk
      rw [updateTot, if_pos rfl, lookupTot, lookupTot,
        if_neg (fun h => hne h.symm), if_neg (fun h => hne h.symm)]
    · rw [updateTot, if_neg hk, lookupTot, lookupTot]
      by_cases h2 : k₀ = k
      · rw [if_pos h2, if_pos h2]
      · rw [if_neg h2, if_neg h2]
        exact ih

theorem lookupTot_append (t : TotalsMap) (key k : Option String)
    (e : TotalEntry) :
    lookupTot (t ++ [(key, e)]) k =
      match lookupTot t k with
      | some e' => some e'
      | none => if key = k then some e else none := by
  induction t with
  | nil => simp [lookupTot]
  | cons x rest ih =>
    obtain ⟨k₀, e₀⟩ := x
    by_cases hk : k₀ = k
    · simp [lookupTot, hk]
    · simp [lookupTot, hk, ih]

theorem totOk_updateTot (key : Option String) (e' : TotalEntry)
    (he : e'.value.isSome = true) :
    ∀ t : TotalsMap, totOk t → totOk (updateTot t key e') := by
  intro t
  induction t with
  | nil =>
    intro _ q hq
    cases hq
  | cons x rest ih =>
    obtain ⟨k₀, e₀⟩ := x
    intro ht q hq
    rw [updateTot] at hq
    by_cases hk : k₀ = key
    · rw [if_pos hk] at hq
      rcases List.mem_cons.mp hq with h | h
      · subst h; exact he
      · exact ht _ (List.mem_cons_of_mem _ h)
    · rw [if_neg hk] at hq
      rcases List.mem_cons.mp hq with h | h
      · subst h; exact ht _ (List.mem_cons_self _ _)
      · exact ih (fun p hp => ht p (List.mem_cons_of_mem _ hp)) _ h

theorem totOk_append {t : TotalsMap} (ht : totOk t) {key : Option String}
    {e : TotalEntry} (he : e.value.isSome = true) :
    totOk (t ++ [(key, e)]) := by
  intro q hq
  rcases List.mem_append.mp hq with h | h
  · exact ht _ h
  · simp only [List.mem_singleton] at h
    subst h
    exact he

/-- Helpers on entries of a given name. -/
theorem entriesFor_cons_self {k : Option String} {n : PNutrient}
    (h : n.name = k) (rest : List PNutrient) :
    entriesFor k (n :: rest) = n :: entriesFor k rest := by
  simp [entriesFor, List.filter_cons, h]

theorem entriesFor_cons_ne {k : Option String} {n : PNutrient}
    (h : ¬n.name = k) (rest : List PNutrient) :
    entriesFor k (n :: rest) = entriesFor k rest := by
  simp [entriesFor, List.filter_cons, h]

theorem sumFor_cons_self {k : Option String} {n : PNutrient}
    (h : n.name = k) (rest : List PNutrient) :
    sumFor k (n :: rest) = n.value.getD 0 + sumFor k rest := by
  simp [sumFor, entriesFor_cons_self h]

theorem sumFor_cons_ne {k : Option String} {n : PNutrient}
    (h : ¬n.name = k) (rest : List PNutrient) :
    sumFor k (n :: rest) = sumFor k rest := by
  simp [sumFor, entriesFor_cons_ne h]

/-- Step equation: accumulating an entry whose name is already totalled
(both values present) updates that total in place. -/
theorem addNutrients_cons_found {t : TotalsMap} {n : PNutrient}
    {v nv : ℚ} {eu : Option String} (rest : List PNutrient)
    (hL : lookupTot t n.name = some ⟨some v, eu⟩) (hnv : n.value = some nv) :
    addNutrients (n :: rest) t =
      addNutrients rest (updateTot t n.name ⟨some (v + nv), eu⟩) := by
  rw [addNutrients, hL, hnv]

/-- Step equation: accumulating an entry with a fresh name inserts it at
the end of the totals map. -/
theorem addNutrients_cons_fresh {t : TotalsMap} {n : PNutrient}
    (rest : List PNutrient) (hL : lookupTot t n.name = none) :
    addNutrients (n :: rest) t =
      addNutrients rest (t ++ [(n.name, ⟨n.value, n.unitName⟩)]) := by
  rw [addNutrients, hL]

theorem lookupTot_nil (k : Option String) : lookupTot [] k = none := rfl

/-- Characterization of fault-free accumulation: the value stored at a
key is the initial value plus the sum of the matching entries, and the
unit name is the initial one, or the first matching entry's when the
key is fresh. -/
theorem addNutrients_lookup (k : Option String) :
    ∀ (es : List PNutrient) (t : TotalsMap),
      (∀ n ∈ es, n.value.isSome = true) → totOk t →
      lookupTot (addNutrients es t).1 k =
        match lookupTot t k with
        | some e => some ⟨some (e.value.getD 0 + sumFor k es), e.unitName⟩
        | none =>
          match entriesFor k es with
          | [] => none
          | n :: _ => some ⟨some (sumFor k es), n.unitName⟩ := by
  intro es
  induction es with
  | nil =>
    intro t hes ht
    cases hL : lookupTot t k with
    | none => simp [addNutrients, hL, entriesFor]
    | some e =>
      obtain ⟨ev, eu⟩ := e
      obtain ⟨v, hv⟩ := Option.isSome_iff_exists.mp (ht _ (lookupTot_mem hL))
      dsimp at hv
      subst hv
      simp [addNutrients, hL, sumFor, entriesFor]
  | cons n rest ih =>
    intro t hes ht
    obtain ⟨nv, hnv⟩ :=
      Option.isSome_iff_exists.mp (hes n (List.mem_cons_self _ _))
    have hrest : ∀ m ∈ rest, m.value.isSome = true :=
      fun m hm => hes m (List.mem_cons_of_mem _ hm)
    cases hL : lookupTot t n.name with
    | some e =>
      obtain ⟨ev, eu⟩ := e
      obtain ⟨v, hv⟩ := Option.isSome_iff_exists.mp (ht _ (lookupTot_mem hL))
      dsimp at hv
      subst hv
      rw [addNutrients_cons_found rest hL hnv]
      have ht' : totOk (updateTot t n.name ⟨some (v + nv), eu⟩) :=
        totOk_updateTot n.name ⟨some (v + nv), eu⟩ rfl t ht
      rw [ih _ hrest ht']
      by_cases hk : k = n.name
      · subst hk
        rw [lookupTot_updateTot_self hL, hL,
          entriesFor_cons_self rfl rest, sumFor_cons_self rfl rest, hnv]
        simp [add_assoc]
      · rw [lookupTot_updateTot_ne hk,
          entriesFor_cons_ne (fun h => hk h.symm) rest,
          sumFor_cons_ne (fun h => hk h.symm) rest]
    | none =>
      rw [addNutrients_cons_fresh rest hL]
      have ht' : totOk (t ++ [(n.name, ⟨n.value, n.unitName⟩)]) :=
        totOk_append ht (by simp [hnv])
      rw [ih _ hrest ht']
      rw [lookupTot_append]
      by_cases hk : k = n.name
      · subst hk
        rw [hL, entriesFor_cons_self rfl rest, sumFor_cons_self rfl rest, hnv]
        simp
      · rw [entriesFor_cons_ne (fun h => hk h.symm) rest,
          sumFor_cons_ne (fun h => hk h.symm) rest]
        cases hLk : lookupTot t k with
        | some e' => rfl
        | none => rw [if_neg (fun h => hk h.symm)]

/-- Accumulation preserves the totals invariant when no fault occurs. -/
theorem addNutrients_totOk :
    ∀ (es : List PNutrient) (t : TotalsMap),
      (∀ n ∈ es, n.value.isSome = true) → totOk t →
      totOk (addNutrients es t).1 := by
  intro es
  induction es with
  | nil => intro t _ ht; exact ht
  | cons n rest ih =>
    intro t hes ht
    obtain ⟨nv, hnv⟩ :=
      Option.isSome_iff_exists.mp (hes n (List.mem_cons_self _ _))
    have hrest : ∀ m ∈ rest, m.value.isSome = true :=
      fun m hm => hes m (List.mem_cons_of_mem _ hm)
    cases hL : lookupTot t n.name with
    | some e =>
      obtain ⟨ev, eu⟩ := e
      obtain ⟨v, hv⟩ := Option.isSome_iff_exists.mp (ht _ (lookupTot_mem hL))
      dsimp at hv
      subst hv
      rw [addNutrients_cons_found rest hL hnv]
      exact ih _ hrest (totOk_updateTot n.name ⟨some (v + nv), eu⟩ rfl t ht)
    | none =>
      rw [addNutrients_cons_fresh rest hL]
      exact ih _ hrest (totOk_append ht (by simp [hnv]))

/-- Fault-free accumulation over a concatenation is sequential
accumulation. -/
theorem addNutrients_append :
    ∀ (a b : List PNutrient) (t : TotalsMap),
      (∀ n ∈ a, n.value.isSome = true) → totOk t →
      (addNutrients (a ++ b) t).1 = (addNutrients b (addNutrients a t).1).1 := by
  intro a
  induction a with
  | nil => intro b t _ _; rfl
  | cons n rest ih =>
    intro b t ha ht
    obtain ⟨nv, hnv⟩ :=
      Option.isSome_iff_exists.mp (ha n (List.mem_cons_self _ _))
    have hrest : ∀ m ∈ rest, m.value.isSome = true :=
      fun m hm => ha m (List.mem_cons_of_mem _ hm)
    rw [List.cons_append]
    cases hL : lookupTot t n.name with
    | some e =>
      obtain ⟨ev, eu⟩ := e
      obtain ⟨v, hv⟩ := Option.isSome_iff_exists.mp (ht _ (lookupTot_mem hL))
      dsimp at hv
      subst hv
      rw [addNutrients_cons_found (rest ++ b) hL hnv,
        addNutrients_cons_found rest hL hnv]
      exact ih b _ hrest (totOk_updateTot n.name ⟨some (v + nv), eu⟩ rfl t ht)
    | none =>
      rw [addNutrients_cons_fresh (rest ++ b) hL,
        addNutrients_cons_fresh rest hL]
      exact ih b _ hrest (totOk_append ht (by simp [hnv]))

/-- With valid profiles the recipe fold's totals are the fault-free
accumulation of all contributed nutrient entries. -/
theorem recipeFold_totals (l : List (String × Option ProcessedFood)) :
    ∀ (t : TotalsMap) (ings : List (String × List PNutrient)),
      (∀ p ∈ l, validProfile p.2 = true) → totOk t →
      (l.foldl processOne (ings, t)).2 = (addNutrients (allEntries l) t).1 := by
  induction l with
  | nil => intro t ings _ _; rfl
  | cons x rest ih =>
    intro t ings hl ht
    cases hx : x.2 with
    | none =>
      have := hl x (List.mem_cons_self _ _)
      rw [hx] at this
      exact absurd this (by simp [validProfile])
    | some pf =>
      have hvals : ∀ n ∈ pf.nutrients, n.value.isSome = true := by
        have hv := hl x (List.mem_cons_self _ _)
        rw [hx] at hv
        rw [validProfile] at hv
        exact fun n hn => List.all_eq_true.mp hv n hn
      have hrest : ∀ p ∈ rest, validProfile p.2 = true :=
        fun p hp => hl p (List.mem_cons_of_mem _ hp)
      have hstep : processOne (ings, t) x =
          (ings ++ [(x.1, pf.nutrients)], (addNutrients pf.nutrients t).1) := by
        simp [processOne, hx]
      rw [List.foldl_cons, hstep,
        ih _ _ hrest (addNutrients_totOk pf.nutrients t hvals ht)]
      have hall : allEntries (x :: rest) = pf.nutrients ++ allEntries rest := by
        simp [allEntries, hx]
      rw [hall, addNutrients_append pf.nutrients (allEntries rest) t hvals ht]

/-- Every nutrient entry contributed by a list of valid profiles carries
a present value. -/
theorem allEntries_values (l : List (String × Option ProcessedFood))
    (hl : ∀ p ∈ l, validProfile p.2 = true) :
    ∀ n ∈ allEntries l, n.value.isSome = true := by
  intro n hn
  rw [allEntries, List.mem_flatMap] at hn
  obtain ⟨p, hp, hn⟩ := hn
  have hv := hl p hp
  cases hx : p.2 with
  | none =>
    rw [hx] at hv
    exact absurd hv (by simp [validProfile])
  | some pf =>
    rw [hx] at hv hn
    rw [validProfile] at hv
    exact List.all_eq_true.mp hv n hn

/-- Claim C6 amended: with valid profiles AND all same-named nutrient
entries agreeing on the unit name, permuting the ingredient list leaves
the `totalNutrients` mapping identical (same keys, same summed values,
same unit names).  Without the unit-name agreement the stored unit name
can change — see the counterexample. -/
theorem aggregation_order_independent
    (l₁ l₂ : List (String × Option ProcessedFood))
    (hperm : l₁.Perm l₂)
    (hvalid : ∀ p ∈ l₁, validProfile p.2 = true)
    (hunits : ∀ n ∈ allEntries l₁, ∀ m ∈ allEntries l₁,
      n.name = m.name → n.unitName = m.unitName)
    (r₁ r₂ : RecipeNutrition)
    (h₁ : compute_recipe_nutrition l₁ = some r₁)
    (h₂ : compute_recipe_nutrition l₂ = some r₂)
    (k : Option String) :
    lookupTot r₁.totalNutrients k = lookupTot r₂.totalNutrients k := by
  have hvalid₂ : ∀ p ∈ l₂, validProfile p.2 = true :=
    fun p hp => hvalid p (hperm.mem_iff.mpr hp)
  have hne₁ : l₁ ≠ [] := by
    rintro rfl
    rw [compute_recipe_nutrition] at h₁
    simp at h₁
  have hne₂ : l₂ ≠ [] := by
    rintro rfl
    rw [compute_recipe_nutrition] at h₂
    simp at h₂
  rw [compute_recipe_nutrition, if_neg hne₁, Option.some.injEq] at h₁
  rw [compute_recipe_nutrition, if_neg hne₂, Option.some.injEq] at h₂
  subst h₁
  subst h₂
  show lookupTot (recipeFold l₁).2 k = lookupTot (recipeFold l₂).2 k
  rw [recipeFold, recipeFold_totals l₁ [] [] hvalid (fun q hq => absurd hq (by simp)),
    recipeFold, recipeFold_totals l₂ [] [] hvalid₂ (fun q hq => absurd hq (by simp)),
    addNutrients_lookup k _ _ (allEntries_values l₁ hvalid)
      (fun q hq => absurd hq (by simp)),
    addNutrients_lookup k _ _ (allEntries_values l₂ hvalid₂)
      (fun q hq => absurd hq (by simp))]
  have hpermE : (allEntries l₁).Perm (allEntries l₂) := hperm.flatMap_right _
  have hpermF : (entriesFor k (allEntries l₁)).Perm
      (entriesFor k (allEntries l₂)) := hpermE.filter _
  have hsum : sumFor k (allEntries l₁) = sumFor k (allEntries l₂) :=
    List.Perm.sum_eq (hpermF.map _)
  cases hE : entriesFor k (allEntries l₁) with
  | nil =>
    have hE₂ : entriesFor k (allEntries l₂) = [] := by
      rw [hE] at hpermF
      exact hpermF.symm.eq_nil
    rw [hE₂]
    simp only [lookupTot_nil]
  | cons n₁ rest₁ =>
    obtain ⟨n₂, rest₂, hE₂⟩ :
        ∃ n₂ rest₂, entriesFor k (allEntries l₂) = n₂ :: rest₂ := by
      cases hc : entriesFor k (allEntries l₂) with
      | nil =>
        rw [hE, hc] at hpermF
        exact absurd hpermF.length_eq (by simp)
      | cons a b => exact ⟨a, b, rfl⟩
    rw [hE₂, hsum]
    simp only [lookupTot_nil]
    have hn₁ : n₁ ∈ entriesFor k (allEntries l₁) := by
      rw [hE]; exact List.mem_cons_self _ _
    have hn₂mem : n₂ ∈ entriesFor k (allEntries l₁) := by
      refine hpermF.mem_iff.mpr ?_
      rw [hE₂]; exact List.mem_cons_self _ _
    have hname₁ : n₁.name = k := by
      rw [entriesFor] at hn₁
      simpa using List.of_mem_filter hn₁
    have hname₂ : n₂.name = k := by
      rw [entriesFor] at hn₂mem
      simpa using List.of_mem_filter hn₂mem
    have huu : n₁.unitName = n₂.unitName :=
      hunits n₁ (List.mem_of_mem_filter hn₁) n₂ (List.mem_of_mem_filter hn₂mem)
        (by rw [hname₁, hname₂])
    rw [huu]

/-- Witness for the amended C6: swapping two unit-consistent ingredients
leaves the Protein total's lookup unchanged. -/
theorem aggregation_order_independent_witness :
    lookupTot (recipeFold exLA).2 (some "Protein") =
      lookupTot (recipeFold exLB).2 (some "Protein") :=
  aggregation_order_independent exLA exLB
    (by rw [exLA, exLB]; exact List.Perm.swap _ _ _)
    (by intro p hp
        rw [exLA] at hp
        rcases List.mem_cons.mp hp with h | h
        · subst h; rfl
        · rcases List.mem_cons.mp h with h | h
          · subst h; rfl
          · cases h)
    (by intro n hn m hm _
        have h5 : ∀ x ∈ allEntries exLA,
            x.unitName = some "g" := by
          intro x hx
          rw [allEntries, List.mem_flatMap] at hx
          obtain ⟨p, hp, hx⟩ := hx
          rw [exLA] at hp
          rcases List.mem_cons.mp hp with h | h
          · subst h
            simp only [pfA] at hx
            simp at hx
            subst hx; rfl
          · rcases List.mem_cons.mp h with h | h
            · subst h
              simp only [pfC] at hx
              simp at hx
              subst hx; rfl
            · cases h
        rw [h5 n hn, h5 m hm])
    ⟨(recipeFold exLA).1, (recipeFold exLA).2⟩
    ⟨(recipeFold exLB).1, (recipeFold exLB).2⟩
    (by rw [compute_recipe_nutrition, if_neg (by rw [exLA]; simp)])
    (by rw [compute_recipe_nutrition, if_neg (by rw [exLB]; simp)])
    (some "Protein")

/-- Claim C6 counterexample: two valid profiles whose Protein entries
disagree on the unit name.  Permuting them changes the stored unit name
of the Protein total (first-wins), so the `totalNutrients` mappings are
not identical. -/
theorem permutation_changes_unitName_counterexample :
    (exMA.all fun p => validProfile p.2) = true ∧
    exMA.Perm exMB ∧
    lookupTot (recipeFold exMA).2 (some "Protein") =
      some ⟨some 8, some "g"⟩ ∧
    lookupTot (recipeFold exMB).2 (some "Protein") =
      some ⟨some 8, some "mg"⟩ ∧
    lookupTot (recipeFold exMA).2 (some "Protein") ≠
      lookupTot (recipeFold exMB).2 (some "Protein") := by
  refine ⟨by simp [exMA, validProfile, pfA, pfCmg], ?_, ?_, ?_, ?_⟩
  · rw [exMA, exMB]
    exact List.Perm.swap _ _ _
  · simp [recipeFold, processOne, exMA, pfA, pfCmg, addNutrients, lookupTot,
      updateTot]
    norm_num
  · simp [recipeFold, processOne, exMB, pfA, pfCmg, addNutrients, lookupTot,
      updateTot]
    norm_num
  · simp [recipeFold, processOne, exMA, exMB, pfA, pfCmg, addNutrients,
      lookupTot, updateTot]
